import Mathlib

/-!
Verification development for the `tekla-api-mcp` documentation indexing and
resolution engine.  The TypeScript/JavaScript sources are shallowly embedded:
pure string manipulation is modelled over `List Char`, JSON-borne records
become Lean structures (optional / possibly-`undefined` fields become
`Option String`), the in-memory record store becomes an explicit `List`
threaded through the operations, and the remote-fallback cache becomes an
association list threaded as state.  Floating-point `count / length > 0.5`
is modelled by the exactly-equivalent integer comparison `length < 2*count`.
-/

namespace TeklaMcp

/-! ## JavaScript string primitives

`strContains` models `String.prototype.includes`, `jsStartsWith` /
`jsEndsWith` model `startsWith` / `endsWith`, `jsToLower` models
`toLowerCase` (ASCII, which is all the sources use), `jsTrim` models
`String.prototype.trim`. -/

/-- Helper for `strContains`: does `pat` occur as a contiguous sublist? -/
def listContainsAux (pat : List Char) : List Char → Bool
  | [] => pat.isEmpty
  | c :: rest => pat.isPrefixOf (c :: rest) || listContainsAux pat rest

/-- JS `s.includes(pat)`. -/
def strContains (s pat : String) : Bool :=
  listContainsAux pat.data s.data

/-- JS `s.startsWith(pre)`. -/
def jsStartsWith (s pre : String) : Bool :=
  pre.data.isPrefixOf s.data

/-- JS `s.endsWith(suf)`. -/
def jsEndsWith (s suf : String) : Bool :=
  suf.data.isSuffixOf s.data

/-- JS `s.toLowerCase()` (ASCII range, as used by the sources). -/
def jsToLower (s : String) : String :=
  ⟨s.data.map Char.toLower⟩

/-- JS `s.trim()`. -/
def jsTrim (s : String) : String :=
  ⟨((s.data.dropWhile Char.isWhitespace).reverse.dropWhile Char.isWhitespace).reverse⟩

/-! ## Remote Fallback (`src/online-api-fallback.ts`) -/

/-- Result shape returned by the online fallback (`OnlineApiResult`). -/
structure OnlineApiResult where
  title : String
  description : String
  ns : String          -- `namespace` in the source (a Lean keyword)
  ty : String          -- `type` in the source
  url : String
deriving DecidableEq

/-- Source `private baseUrl` of `OnlineApiFallback`. -/
def baseUrl : String := "https://developer.tekla.com/doc/tekla-structures/2025"

/-- Namespace pool used by `simulateOnlineResults`. -/
def fallbackNamespaces : List String :=
  ["Tekla.Structures.Model", "Tekla.Structures.Drawing",
   "Tekla.Structures.Geometry3d", "Tekla.Structures.Plugins"]

/-- Source `inferNamespace(name)` from `OnlineApiFallback`. -/
def inferNamespace (name : String) : String :=
  if strContains name "Model" || strContains name "Beam" || strContains name "Column" then
    "Tekla.Structures.Model"
  else if strContains name "Drawing" || strContains name "View" || strContains name "Dimension" then
    "Tekla.Structures.Drawing"
  else if strContains name "Point" || strContains name "Vector" || strContains name "Geometry" then
    "Tekla.Structures.Geometry3d"
  else if strContains name "Plugin" then
    "Tekla.Structures.Plugins"
  else "Tekla.Structures"

/-- Replace every `.` by `-` (the `replace(/\./g, '-')` step of `classNameToUrl`). -/
def dashForDots (l : List Char) : List Char :=
  l.map fun c => if c == '.' then '-' else c

/-- Replace every maximal whitespace run by a single `-`
(the `replace(/\s+/g, '-')` step of `classNameToUrl`).  The boolean flag
records whether the previous character was part of a whitespace run. -/
def dashForWsAux : Bool → List Char → List Char
  | _, [] => []
  | prev, c :: rest =>
    if c.isWhitespace then
      if prev then dashForWsAux true rest else '-' :: dashForWsAux true rest
    else c :: dashForWsAux false rest

/-- Source `classNameToUrl(className)` from `OnlineApiFallback`. -/
def classNameToUrl (className : String) : String :=
  ⟨dashForWsAux false (dashForDots (jsToLower className).data)⟩

/-- Source `simulateOnlineResults(query, type, limit)`: the deterministic stand-in
for a remote search used by `searchOnline`.  JS `type || 'class'` is the
empty-string (falsy) test on the `type` argument. -/
def simulateOnlineResults (query ty : String) (limit : Nat) : List OnlineApiResult :=
  (List.range (min limit 5)).map fun i =>
    { title := query ++ (if i > 0 then " " ++ toString (i + 1) else "") ++ " Class"
      description := "Comprehensive documentation for " ++ query ++
        " from the online Tekla API reference. This includes detailed information about properties, methods, and usage examples."
      ns := (fallbackNamespaces.getD (i % fallbackNamespaces.length) "")
      ty := if ty == "" then "class" else ty
      url := baseUrl ++ "/" ++ jsToLower query ++ "-class-" ++ toString (i + 1) }

/-- Source `simulateClassDetails(className)`: the deterministic stand-in used by
`getClassDetailsOnline` (which always succeeds in this implementation). -/
def simulateClassDetails (className : String) : OnlineApiResult :=
  { title := className ++ " Class"
    description := "The " ++ className ++
      " class provides comprehensive functionality for structural modeling in Tekla Structures. This class includes methods for creating, modifying, and querying structural elements with full support for all Tekla features."
    ns := inferNamespace className
    ty := "class"
    url := baseUrl ++ "/" ++ classNameToUrl className }

/-- View of a local result as read (duck-typed) by `shouldUseFallback`:
only the `namespace`, `summary` and `description` fields are consulted.
`none` models the JS `undefined` field. -/
structure LocalResult where
  ns : Option String
  summary : Option String
  description : Option String
deriving DecidableEq

/-- The per-result poor-quality test inside `shouldUseFallback`:
`!r.namespace || r.namespace === 'N/A' || (r.summary && r.summary.includes('Copyright ©'))
|| (r.description && r.description.includes('Copyright ©'))`.
JS falsiness of a string field is `undefined` (`none`) or the empty string. -/
def isPoorQuality (r : LocalResult) : Bool :=
  (match r.ns with | none => true | some s => s == "") ||
  r.ns == some "N/A" ||
  (match r.summary with | none => false | some s => s != "" && strContains s "Copyright ©") ||
  (match r.description with | none => false | some s => s != "" && strContains s "Copyright ©")

/-- Source `shouldUseFallback(localResults, query)`.  The source compares
`poorQualityCount / localResults.length > 0.5` in floating point; for the
integer counts involved this is exactly `length < 2 * poorQualityCount`. -/
def shouldUseFallback (localResults : List LocalResult) (_query : String) : Bool :=
  if localResults.length == 0 then true
  else
    let poorQualityCount := (localResults.filter isPoorQuality).length
    if localResults.length < 2 * poorQualityCount then true else false

/-- The fallback cache: `private cache: Map<string, OnlineApiResult[]>`,
modelled as an insertion-ordered association list. -/
abbrev FallbackState := List (String × List OnlineApiResult)

/-- Empty cache (a fresh `OnlineApiFallback`). -/
def emptyFallbackState : FallbackState := []

/-- Source `cache.get(key)` / `cache.has(key)`. -/
def lookupFb : FallbackState → String → Option (List OnlineApiResult)
  | [], _ => none
  | (k, v) :: rest, key => if k == key then some v else lookupFb rest key

/-- Source `cache.set(key, v)` for a key not yet present (the only way the source
inserts): JS `Map` appends in insertion order. -/
def insertFb (st : FallbackState) (key : String) (v : List OnlineApiResult) : FallbackState :=
  st ++ [(key, v)]

/-- The cache key `` `${query}-${type}-${limit}` ``. -/
def cacheKey (query ty : String) (limit : Nat) : String :=
  query ++ "-" ++ ty ++ "-" ++ toString limit

/-- Source `searchOnline(query, type, limit)`: consult the cache, otherwise compute
the (simulated) remote answer and cache it.  Returns the answer together
with the updated cache state. -/
def searchOnline (st : FallbackState) (query ty : String) (limit : Nat) :
    List OnlineApiResult × FallbackState :=
  let key := cacheKey query ty limit
  match lookupFb st key with
  | some v => (v, st)
  | none =>
    let simulatedResults := simulateOnlineResults query ty limit
    (simulatedResults, insertFb st key simulatedResults)

/-! ## Table-of-Contents kind classifier (`parse-simple.js` / `parse-light.js`)

`determineItemType` is identical in both parser scripts. -/

/-- Source `determineItemType(name)`. -/
def determineItemType (name : String) : String :=
  if name == "Tekla.Structures" || strContains name "Namespace" then "namespace"
  else if strContains name " Class" && !strContains name " Classes" then "class"
  else if strContains name " Interface" && !strContains name " Interfaces" then "interface"
  else if strContains name " Enumeration" || strContains name " Enum" then "enum"
  else if strContains name " Properties" || strContains name " Members" then "properties-collection"
  else if strContains name " Methods" then "methods-collection"
  else if strContains name " Property " then "property"
  else if strContains name " Method " || strContains name " Constructor " then "method"
  else if strContains name " Event " then "event"
  else if strContains name " Field " then "field"
  else if strContains name " Delegate " then "delegate"
  else "other"

/-- The §4.2 classification table of the specification, written as an
ordered list of (pattern, kind) rows.  This definition follows the SPEC's
wording (one row per table line, in table order) and is compared against
the source-derived `determineItemType`. -/
def kindTableSpec : List ((String → Bool) × String) :=
  [ (fun n => n == "Tekla.Structures" || strContains n "Namespace", "namespace"),
    (fun n => strContains n " Class" && !strContains n " Classes", "class"),
    (fun n => strContains n " Interface" && !strContains n " Interfaces", "interface"),
    (fun n => strContains n " Enumeration" || strContains n " Enum", "enum"),
    (fun n => strContains n " Properties" || strContains n " Members", "properties-collection"),
    (fun n => strContains n " Methods", "methods-collection"),
    (fun n => strContains n " Property ", "property"),
    (fun n => strContains n " Method " || strContains n " Constructor ", "method"),
    (fun n => strContains n " Event ", "event"),
    (fun n => strContains n " Field ", "field"),
    (fun n => strContains n " Delegate ", "delegate") ]

/-- Classification per the spec table: the first matching row wins
(the table's precedence order); a name matching no row is "other". -/
def classifyTableSpec (name : String) : String :=
  match kindTableSpec.find? (fun row => row.1 name) with
  | some row => row.2
  | none => "other"

/-! ## Markup Normalizer, bulk pass (`parse-light.js`, `parseLight`)

The page itself is JSDOM/regex territory; what the four regexes of
`parseLight` extract is modelled as a `PageExtract` (each field is the
capture group of the corresponding regex, `none` when the regex does not
match).  Everything after the regex matches is embedded faithfully. -/

/-- Skip to just after the first `'>'`, or `none` if there is none
(helper for the `replace(/<[^>]*>/g, '')` semantics: a `<` with no later
`>` is not part of any match and stays). -/
def findGt : List Char → Option (List Char)
  | [] => none
  | c :: rest => if c == '>' then some rest else findGt rest

theorem findGt_length_le : ∀ l r, findGt l = some r → r.length ≤ l.length := by
  intro l
  induction l with
  | nil => intro r h; simp [findGt] at h
  | cons c rest ih =>
    intro r h
    simp only [findGt] at h
    by_cases hc : c == '>'
    · simp only [hc, if_true] at h
      cases h
      simp
    · simp only [hc, if_false, Bool.false_eq_true] at h
      have := ih r h
      simp only [List.length_cons]
      omega

/-- Source `text.replace(/<[^>]*>/g, '')`: each `<` ... first-following-`>` span is
removed; a `<` with no following `>` remains. -/
def stripTags : List Char → List Char
  | [] => []
  | c :: rest =>
    if c == '<' then
      match h : findGt rest with
      | some rest' => stripTags rest'
      | none => c :: stripTags rest
    else c :: stripTags rest
termination_by l => l.length
decreasing_by
  · simp; exact Nat.lt_succ_of_le (findGt_length_le _ _ h)
  · simp
  · simp

/-- Source `text.replace(/\s+/g, ' ')`: every maximal whitespace run becomes one
space.  The flag records whether the previous character was whitespace. -/
def collapseWsAux : Bool → List Char → List Char
  | _, [] => []
  | prev, c :: rest =>
    if c.isWhitespace then
      if prev then collapseWsAux true rest else ' ' :: collapseWsAux true rest
    else c :: collapseWsAux false rest

/-- String version of `collapseWsAux` starting outside a run. -/
def collapseWs (s : String) : String :=
  ⟨collapseWsAux false s.data⟩

/-- Split a character list on a separator character (models JS
`String.prototype.split` with a single-character separator). -/
def splitOnChar (sep : Char) : List Char → List (List Char)
  | [] => [[]]
  | c :: rest =>
    let r := splitOnChar sep rest
    if c == sep then [] :: r
    else
      match r with
      | [] => [[c]]
      | h :: t => (c :: h) :: t

/-- Join with `"."` (JS `parts.join('.')`). -/
def joinDot (parts : List String) : String :=
  String.intercalate "." parts

/-- Group 1 of the first match of
`/(Tekla\.[A-Za-z.]+)(?:\s+(?:Class|Interface|Enum|Namespace|Method|Property|Delegate))?/`:
scan left to right for a position where `"Tekla."` is followed by at least
one `[A-Za-z.]` character; the group is `"Tekla."` plus the maximal such
run.  The optional suffix group never affects group 1. -/
def teklaGroup : List Char → Option String
  | [] => none
  | l@(_ :: rest) =>
    if ("Tekla.".data).isPrefixOf l then
      let tail := l.drop 6
      let run := tail.takeWhile (fun c => c.isAlpha || c == '.')
      if run.isEmpty then teklaGroup rest else some ("Tekla." ++ ⟨run⟩)
    else teklaGroup rest

/-- The fixed-pattern fallbacks at the end of `extractNamespace` in
`parse-light.js`. -/
def specificNamespacePatterns (name : String) : String :=
  if strContains name "Tekla.Structures.Model" then "Tekla.Structures.Model"
  else if strContains name "Tekla.Structures.Drawing" then "Tekla.Structures.Drawing"
  else if strContains name "Tekla.Structures.Analysis" then "Tekla.Structures.Analysis"
  else if strContains name "Tekla.Structures.Geometry3d" then "Tekla.Structures.Geometry3d"
  else if strContains name "Tekla.Structures.Plugins" then "Tekla.Structures.Plugins"
  else if strContains name "Tekla.Structures" then "Tekla.Structures"
  else ""

/-- Source `extractNamespace(name)` from `parse-light.js`: regex-derived dotted
prefix capped at 3 segments, else the fixed patterns, else `""`. -/
def extractNamespaceL (name : String) : String :=
  if strContains name "Tekla." then
    match teklaGroup name.data with
    | some g =>
      let parts := (splitOnChar '.' g.data).map fun l => (⟨l⟩ : String)
      if parts.length > 3 then joinDot (parts.take 3) else g
    | none => specificNamespacePatterns name
  else specificNamespacePatterns name

/-- What the four regexes of `parseLight` extract from the raw page text:
`titleText` is the capture of `/<title>(.*?)<\/title>/i`, `descriptionMeta`
of the `Description` meta regex, `containerMeta` of the `container` meta
regex, and `summaryBlock` of `/<div class="summary">(.*?)<\/div>/is`
(raw inner markup).  `none` means the regex did not match. -/
structure PageExtract where
  titleText : Option String
  descriptionMeta : Option String
  containerMeta : Option String
  summaryBlock : Option String
deriving DecidableEq

/-- One TOC entry as built by the parser scripts. -/
structure TocItem where
  name : String
  htmlFile : String
  level : Nat
  ty : String          -- `type` in the source
  ns : String          -- `namespace` in the source
deriving DecidableEq

/-- The record written into `full-api.json` by `parseLight`. -/
structure ParsedRecord where
  title : String
  description : String
  summary : String
  ns : String          -- `namespace` in the source
  ty : String          -- `type` in the source
  level : Nat
  htmlFile : String
deriving DecidableEq

/-- Source `parseLight(filePath, tocItem)` after the regex matches (the
missing-file / exception path returns `null` upstream and produces no
record, so it is not part of the record-shape claims). -/
def parseLightM (pg : PageExtract) (toc : TocItem) : ParsedRecord :=
  let title := match pg.titleText with | some t => jsTrim t | none => toc.name
  let description := match pg.descriptionMeta with | some d => d | none => ""
  let containerNamespace := match pg.containerMeta with | some c => c | none => ""
  let summary0 := match pg.summaryBlock with
    | some raw => collapseWs (jsTrim ⟨stripTags raw.data⟩)
    | none => ""
  -- `summary: summary || description`
  let summary := if summary0 != "" then summary0 else description
  -- `let namespace = tocItem.namespace || containerNamespace;`
  let ns0 := if toc.ns != "" then toc.ns else containerNamespace
  -- `if (!namespace) { namespace = extractNamespace(title); }`
  let ns1 := if ns0 != "" then ns0 else extractNamespaceL title
  -- `namespace: namespace || ''` (identity on strings up to falsiness)
  { title := title, description := description, summary := summary,
    ns := ns1, ty := toc.ty, level := toc.level, htmlFile := toc.htmlFile }

/-- The summary fallback chain exactly as the SPEC words it: explicit
summary block text (markup stripped, whitespace collapsed) when non-empty,
else the description metadata, else the empty string. -/
def summarySpecChain (pg : PageExtract) : String :=
  match pg.summaryBlock with
  | some raw =>
    let s := collapseWs (jsTrim ⟨stripTags raw.data⟩)
    if s != "" then s else (match pg.descriptionMeta with | some d => d | none => "")
  | none => match pg.descriptionMeta with | some d => d | none => ""

/-! ## Deep-detail data (`src/html-parser.ts`)

`parseClassDetails` itself walks a DOM; its result shape is embedded and the
parse is passed into the engine as a function `String → Option DetailedClassInfo`
from page path to parsed detail (deterministic within one run: the page files
do not change while the process lives, which is how the source reads them). -/

/-- A constructor row (`Constructor` in the source). -/
structure CtorInfo where
  name : String
  description : String
deriving DecidableEq

/-- A property row (`Property` in the source). -/
structure PropertyInfo where
  name : String
  ty : String          -- `type` in the source
  description : String
  inherited : Bool
  inheritedFrom : Option String
deriving DecidableEq

/-- A method row (`Method` in the source). -/
structure MethodInfo where
  name : String
  description : String
  inherited : Bool
  inheritedFrom : Option String
deriving DecidableEq

/-- Source `InheritanceInfo`. -/
structure InheritanceInfo where
  baseClasses : List String
  hierarchy : List String
deriving DecidableEq

/-- Source `DetailedClassInfo` (`syntax` is a Lean keyword, hence
`syntaxText`, the spec's own name for it). -/
structure DetailedClassInfo where
  name : String
  ns : String          -- `namespace` in the source
  description : String
  syntaxText : Option String
  inheritance : Option InheritanceInfo
  constructors : List CtorInfo
  properties : List PropertyInfo
  methods : List MethodInfo
  examples : List String
deriving DecidableEq

/-! ## Record Store and Resolution Engine (`dist/tekla-api-documentation.js`)

`ApiItem` follows the declared interface (`id`, `name`, ... required); the
fields the engine tests for JS-falsiness or reaches through `?.` are
`Option String`. -/

/-- One stored API record. -/
structure ApiItem where
  id : String
  name : String
  title : String
  ty : String          -- `type` in the source
  ns : Option String   -- `namespace` in the source; `none` models `undefined`
  normalizedNamespace : String
  summary : Option String
  description : Option String
  level : Nat
  htmlFile : String
  detailedInfo : Option DetailedClassInfo
deriving DecidableEq

/-- Pass 1 of `getClassDetails` name matching (exact):
`name === query+' class' || name === query || id === query+' class'`
(all lower-cased). -/
def exactClassMatch (query : String) (item : ApiItem) : Bool :=
  jsToLower item.name == jsToLower query ++ " class" ||
  jsToLower item.name == jsToLower query ||
  jsToLower item.id == jsToLower query ++ " class"

/-- Pass 2 (word boundary). -/
def wordBoundaryClassMatch (query : String) (item : ApiItem) : Bool :=
  let name := jsToLower item.name
  let id := jsToLower item.id
  let searchTerm := jsToLower query
  name == searchTerm ++ " class" ||
  id == searchTerm ++ " class" ||
  jsStartsWith name (searchTerm ++ " ") ||
  jsEndsWith name (" " ++ searchTerm) ||
  (strContains name (" " ++ searchTerm ++ " ") || strContains name (" " ++ searchTerm ++ "class"))

/-- Pass 3 (broad substring, last resort). -/
def broadClassMatch (query : String) (item : ApiItem) : Bool :=
  strContains (jsToLower item.name) (jsToLower query) ||
  strContains (jsToLower item.id) (jsToLower query)

/-- The staged candidate list of `getClassDetails`: the exact pass, else the
word-boundary pass, else the broad pass.  Candidates are paired with their
index in the store so the in-place mutation below can be modelled. -/
def classCandidates (classes : List ApiItem) (query : String) : List (Nat × ApiItem) :=
  let e := classes.enum.filter fun p => exactClassMatch query p.2
  if e ≠ [] then e
  else
    let w := classes.enum.filter fun p => wordBoundaryClassMatch query p.2
    if w ≠ [] then w
    else classes.enum.filter fun p => broadClassMatch query p.2

/-- Source `item.namespace?.includes(pat)` (optional chaining: `undefined` is falsy). -/
def nsContains (item : ApiItem) (pat : String) : Bool :=
  match item.ns with
  | some s => strContains s pat
  | none => false

/-- Candidate selection of `getClassDetails`: with several candidates,
prefer the first whose namespace mentions the modeling namespace whenever
some candidate's namespace mentions the drawing namespace too; otherwise
(and with a single candidate) take the first. -/
def selectClass (classes : List ApiItem) (query : String) : Option (Nat × ApiItem) :=
  let cs := classCandidates classes query
  if 1 < cs.length then
    let modelMatch := cs.find? fun p => nsContains p.2 "Tekla.Structures.Model"
    let drawingMatch := cs.find? fun p => nsContains p.2 "Tekla.Structures.Drawing"
    -- `if (modelMatch && drawingMatch) classItem = modelMatch; else classItem = classItems[0]`
    if modelMatch.isSome && drawingMatch.isSome then modelMatch else cs.head?
  else cs.head?

/-- The poor-quality gate inside `getClassDetails`:
`!item.namespace || item.namespace === 'N/A' ||
(item.summary && item.summary.includes('Copyright ©'))`. -/
def hasPoorQualityItem (item : ApiItem) : Bool :=
  (match item.ns with | none => true | some s => s == "") ||
  item.ns == some "N/A" ||
  (match item.summary with | none => false | some s => s != "" && strContains s "Copyright ©")

/-- Shape of a `getClassDetails` answer: `null`, an object built from a
fresh online result (no local match), an online result merged with local
members (poor-quality local match), or a local record. -/
inductive ClassDetailsResult where
  | nullResult : ClassDetailsResult
  | onlineNew : OnlineApiResult → ClassDetailsResult
  | onlineMerged : OnlineApiResult → Nat → List ApiItem → ClassDetailsResult
  | localItem : ApiItem → ClassDetailsResult
deriving DecidableEq

/-- Source `getClassDetails(className, includeMembers)` over a well-formed store.
Returns the answer together with the store after the call (the source
mutates the selected record in place to attach `detailedInfo`; here the
store list is updated at the selected index).  `parse` stands for
`htmlParser.parseClassDetails` (deterministic per page within a run;
`none` covers both its `null` result and a thrown-and-caught parse error,
in which case the record is returned without `detailedInfo`). -/
def getClassDetailsM (parse : String → Option DetailedClassInfo)
    (classes apiData : List ApiItem) (className : String) (includeMembers : Bool) :
    ClassDetailsResult × List ApiItem :=
  match selectClass classes className with
  | none =>
    -- online fallback; `getClassDetailsOnline` always succeeds here
    (ClassDetailsResult.onlineNew (simulateClassDetails className), classes)
  | some (i, classItem) =>
    if hasPoorQualityItem classItem then
      let onlineResult := simulateClassDetails className
      let classMembers := if includeMembers then
          apiData.filter fun it =>
            it.ns == classItem.ns &&
            (it.ty == "method" || it.ty == "property") &&
            strContains (jsToLower it.name) (jsToLower className)
        else []
      (ClassDetailsResult.onlineMerged onlineResult classItem.level classMembers, classes)
    else
      if includeMembers && classItem.htmlFile != "" then
        match parse classItem.htmlFile with
        | some detailedInfo =>
          let item' := { classItem with detailedInfo := some detailedInfo }
          (ClassDetailsResult.localItem item', classes.set i item')
        | none => (ClassDetailsResult.localItem classItem, classes)
      else (ClassDetailsResult.localItem classItem, classes)

/-- Source `browseNamespace(namespace, includeMembers)`:
`item.namespace && item.namespace.toLowerCase().startsWith(ns.toLowerCase())`,
then the top-level-kind restriction unless `includeMembers`. -/
def browseNamespaceM (apiData : List ApiItem) (ns : String) (includeMembers : Bool) :
    List ApiItem :=
  let namespaceItems := apiData.filter fun it =>
    match it.ns with
    | some s => s != "" && jsStartsWith (jsToLower s) (jsToLower ns)
    | none => false
  if !includeMembers then
    namespaceItems.filter fun it => ["class", "interface", "enum", "delegate"].contains it.ty
  else namespaceItems

/-! ## `search(query, type, limit)` pipeline

The Fuse.js fuzzy index is outside the embedding: the ranked match list it
returns for the query is the `ranked` input below, and everything the
source does after ranking is embedded.  (The `!this.searchIndex` branch,
which delegates the whole query online, is not part of the ranked
pipeline.) -/

/-- A search-index entry / search result (interface `SearchResult`). -/
structure SearchResultRec where
  id : String
  title : String
  name : String
  ty : String          -- `type` in the source
  ns : Option String   -- `namespace` in the source
  normalizedNamespace : String
  summary : Option String
  description : Option String
  htmlFile : String
deriving DecidableEq

/-- Projection to the fields `shouldUseFallback` duck-reads. -/
def toLocalResult (r : SearchResultRec) : LocalResult :=
  { ns := r.ns, summary := r.summary, description := r.description }

/-- Source `convertOnlineResults(onlineResults)`. -/
def convertOnlineResults (onlineResults : List OnlineApiResult) : List SearchResultRec :=
  onlineResults.map fun r =>
    { id := r.title, title := r.title, name := r.title, ty := r.ty,
      ns := some r.ns, normalizedNamespace := r.ns,
      summary := some r.description, description := some r.description,
      htmlFile := r.url }

/-- The per-result enrichment step of `search`:
`{...item, normalizedNamespace: fullItem?.normalizedNamespace || item.namespace || ''}`
where `fullItem` is the first `apiData` record with matching `id` or `name`. -/
def mapStage (ranked apiData : List SearchResultRec) : List SearchResultRec :=
  ranked.map fun item =>
    let fullItem := apiData.find? fun a => a.id == item.id || a.name == item.name
    let v1 : String := match fullItem with | some f => f.normalizedNamespace | none => ""
    let v2 : String := match item.ns with | some s => s | none => ""
    { item with normalizedNamespace := if v1 != "" then v1 else if v2 != "" then v2 else "" }

/-- The type filter plus truncation producing `localResults`:
filter (unless `type === 'all'`) is applied to the whole ranked list,
truncation to `limit` afterwards. -/
def localStage (ranked apiData : List SearchResultRec) (ty : String) (limit : Nat) :
    List SearchResultRec :=
  let filteredResults :=
    if ty != "all" then (mapStage ranked apiData).filter fun it => it.ty == ty
    else mapStage ranked apiData
  filteredResults.take limit

/-- The combine-and-deduplicate loop of `search`: append each online result
whose lower-cased title is not yet present, while under `limit`. -/
def mergeOnline (limit : Nat) : List SearchResultRec → List String → List SearchResultRec →
    List SearchResultRec
  | combined, _, [] => combined
  | combined, existingTitles, o :: rest =>
    if !(existingTitles.contains (jsToLower o.title)) && combined.length < limit then
      mergeOnline limit (combined ++ [o]) (existingTitles ++ [jsToLower o.title]) rest
    else mergeOnline limit combined existingTitles rest

/-- Source `search(query, type, limit)` given the ranked index answer, the combined
store, and the fallback cache; returns the result list and the new cache. -/
def searchM (ranked apiData : List SearchResultRec) (fb : FallbackState)
    (query ty : String) (limit : Nat) : List SearchResultRec × FallbackState :=
  let localResults := localStage ranked apiData ty limit
  if shouldUseFallback (localResults.map toLocalResult) query then
    let (onlineResults, fb') := searchOnline fb query ty limit
    let combined := mergeOnline limit localResults
      (localResults.map fun r => jsToLower r.title)
      (convertOnlineResults onlineResults)
    (combined, fb')
  else (localResults, fb)

/-! ## Dynamic model for the operation-boundary error handling

Stored JSON can be malformed: array slots may be `null` and fields may be
missing.  `DynRecord` makes every field optional and the operation bodies
are threaded through `Except JsError`, erroring exactly where the
JavaScript would throw a `TypeError` (a method call or property access on
`undefined`/`null`).  Each public operation is then the `try`/`catch` of
its body, except `getStatistics`, which has no `try`/`catch` in the
source. -/

/-- A JS runtime fault. -/
inductive JsError where
  | typeError : JsError
deriving DecidableEq

/-- Property access on a possibly-`null` object. -/
def jsObj : Option α → Except JsError α
  | some a => Except.ok a
  | none => Except.error JsError.typeError

/-- A method call (such as `.toLowerCase()`) on a possibly-missing string. -/
def jsStr : Option String → Except JsError String
  | some s => Except.ok s
  | none => Except.error JsError.typeError

/-- Source `Array.prototype.find` with an effectful callback (first error wins). -/
def findE (p : α → Except ε Bool) : List α → Except ε (Option α)
  | [] => Except.ok none
  | x :: xs => do
    if ← p x then return some x else findE p xs

/-- Source `Array.prototype.filter` with an effectful callback. -/
def filterE (p : α → Except ε Bool) : List α → Except ε (List α)
  | [] => Except.ok []
  | x :: xs => do
    let b ← p x
    let rest ← filterE p xs
    return if b then x :: rest else rest

/-- Source `Array.prototype.some` with an effectful callback. -/
def someE (p : α → Except ε Bool) : List α → Except ε Bool
  | [] => Except.ok false
  | x :: xs => do
    if ← p x then return true else someE p xs

/-- Source `Array.prototype.map` with an effectful callback. -/
def mapE (f : α → Except ε β) : List α → Except ε (List β)
  | [] => Except.ok []
  | x :: xs => do
    let y ← f x
    let ys ← mapE f xs
    return y :: ys

/-- A stored record with every field possibly missing. -/
structure DynRecord where
  id : Option String := none
  name : Option String := none
  title : Option String := none
  ty : Option String := none          -- `type` in the source
  ns : Option String := none          -- `namespace` in the source
  normalizedNamespace : Option String := none
  summary : Option String := none
  description : Option String := none
  level : Option Nat := none
  htmlFile : Option String := none
  detailedInfo : Option DetailedClassInfo := none
deriving DecidableEq

/-- A code snippet with every field possibly missing. -/
structure DynSnippet where
  title : Option String := none
  code : Option String := none
  language : Option String := none
  description : Option String := none
deriving DecidableEq

/-- A stored example with every field possibly missing. -/
structure DynExample where
  name : Option String := none
  category : Option String := none
  description : Option String := none
  apiElements : Option (List (Option String)) := none
  codeSnippets : Option (List (Option DynSnippet)) := none
deriving DecidableEq

/-- Template-string interpolation of a possibly-missing string:
`` `${undefined}` `` is the text `"undefined"`. -/
def optStr : Option String → String
  | some s => s
  | none => "undefined"

/-- JS `Array.prototype.join(', ')`: `null`/`undefined` elements become
empty strings. -/
def joinJs (l : List (Option String)) : String :=
  String.intercalate ", " (l.map fun e => match e with | some s => s | none => "")

/-! ### `getMethodDetails` (dynamic) -/

/-- Callback of the first `find` in `getMethodDetails` (both conjuncts read
`item.name`, fetched once). -/
def methodPredE (methodName : String) (className : Option String) (it? : Option DynRecord) :
    Except JsError Bool := do
  let it ← jsObj it?
  let nm ← jsStr it.name
  let nameMatch := strContains (jsToLower nm) (jsToLower methodName)
  let classMatch := match className with
    | none => true
    | some c => if c == "" then true else strContains (jsToLower nm) (jsToLower c)
  return nameMatch && classMatch

/-- Callback of the fallback `find` over `apiData` (`item.type === 'method' &&`
short-circuits before any method call on `item.name`). -/
def methodFallbackPredE (methodName : String) (className : Option String)
    (it? : Option DynRecord) : Except JsError Bool := do
  let it ← jsObj it?
  if it.ty == some "method" then do
    let nm ← jsStr it.name
    let nameOk := strContains (jsToLower nm) (jsToLower methodName)
    if nameOk then
      match className with
      | none => return true
      | some c =>
        if c == "" then return true
        else return strContains (jsToLower nm) (jsToLower c)
    else return false
  else return false

/-- Body of `getMethodDetails` (inside the `try`). -/
def getMethodDetailsBody (methods apiData : List (Option DynRecord))
    (methodName : String) (className : Option String) :
    Except JsError (Option (Option DynRecord)) := do
  let methodItem ← findE (methodPredE methodName className) methods
  match methodItem with
  | some it => return some it
  | none => findE (methodFallbackPredE methodName className) apiData

/-- Source `getMethodDetails` with its operation-boundary `catch` (returns `null`). -/
def getMethodDetailsPub (methods apiData : List (Option DynRecord))
    (methodName : String) (className : Option String) :
    Except JsError (Option (Option DynRecord)) :=
  match getMethodDetailsBody methods apiData methodName className with
  | Except.ok v => Except.ok v
  | Except.error _ => Except.ok none

/-! ### `browseNamespace` (dynamic) -/

/-- Body of `browseNamespace` (inside the `try`). -/
def browseNamespaceBody (apiData : List (Option DynRecord)) (ns : String)
    (includeMembers : Bool) : Except JsError (List (Option DynRecord)) := do
  let namespaceItems ← filterE (fun it? => do
    let it ← jsObj it?
    return (match it.ns with
      | some s => s != "" && jsStartsWith (jsToLower s) (jsToLower ns)
      | none => false)) apiData
  if !includeMembers then
    filterE (fun it? => do
      let it ← jsObj it?
      return (match it.ty with
        | some t => ["class", "interface", "enum", "delegate"].contains t
        | none => false)) namespaceItems
  else return namespaceItems

/-- Source `browseNamespace` with its operation-boundary `catch` (returns `[]`). -/
def browseNamespacePub (apiData : List (Option DynRecord)) (ns : String)
    (includeMembers : Bool) : Except JsError (List (Option DynRecord)) :=
  match browseNamespaceBody apiData ns includeMembers with
  | Except.ok v => Except.ok v
  | Except.error _ => Except.ok []

/-! ### `getCodeExamples` (dynamic) -/

/-- One output row of `getCodeExamples`. -/
structure CodeExampleOut where
  title : Option String
  description : Option String
  code : Option String
  language : Option String
  ty : String          -- `type` in the source
  exampleName : Option String := none   -- `example` field, absent on overviews
deriving DecidableEq

/-- Filter callback of `getCodeExamples` (`||` short-circuits). -/
def exampleMatchPredE (element : String) (ex? : Option DynExample) : Except JsError Bool := do
  let ex ← jsObj ex?
  let nm ← jsStr ex.name
  if strContains (jsToLower nm) (jsToLower element) then return true
  else do
    let els ← jsObj ex.apiElements
    let hit ← someE (fun apiEl? => do
      let apiEl ← jsStr apiEl?
      return strContains (jsToLower apiEl) (jsToLower element)) els
    if hit then return true
    else do
      let d ← jsStr ex.description
      return strContains (jsToLower d) (jsToLower element)

/-- Snippet rows pushed for one matching example. -/
def snippetRowsE (language : String) (ex : DynExample) :
    Except JsError (List CodeExampleOut) := do
  let snippets ← jsObj ex.codeSnippets
  let rows ← mapE (fun sn? => do
    let keep ← if language == "all" then pure true
      else do
        let sn ← jsObj sn?
        pure (sn.language == some language)
    if keep then do
      let sn ← jsObj sn?
      return some { title := sn.title, description := sn.description,
                    code := sn.code, language := sn.language,
                    ty := "snippet", exampleName := ex.name }
    else return none) (snippets.take 3)
  return rows.reduceOption

/-- Body of `getCodeExamples` (inside the `try`): filter, then per example
(capped at 5) one overview row plus up to 3 language-filtered snippets. -/
def getCodeExamplesBody (examples : List (Option DynExample)) (element language : String) :
    Except JsError (List CodeExampleOut) := do
  let matchingExamples ← filterE (exampleMatchPredE element) examples
  let perExample ← mapE (fun ex? => do
    let ex ← jsObj ex?
    let els ← jsObj ex.apiElements      -- `example.apiElements.join(', ')`
    let overview : CodeExampleOut :=
      { title := some (optStr ex.name ++ " Example")
        description := some (optStr ex.description ++ "\n\nCategory: " ++ optStr ex.category ++
          "\nAPI Elements: " ++ joinJs els)
        code := some ""
        language := some "text"
        ty := "overview" }
    let snippetRows ← snippetRowsE language ex
    return overview :: snippetRows) (matchingExamples.take 5)
  return perExample.flatten

/-- Source `getCodeExamples` with its operation-boundary `catch` (returns `[]`). -/
def getCodeExamplesPub (examples : List (Option DynExample)) (element language : String) :
    Except JsError (List CodeExampleOut) :=
  match getCodeExamplesBody examples element language with
  | Except.ok v => Except.ok v
  | Except.error _ => Except.ok []

/-! ### `getStatistics` (dynamic) — NO `try`/`catch` in the source -/

/-- The statistics object. -/
structure Stats where
  totalItems : Nat
  classes : Nat
  methods : Nat
  properties : Nat
  namespaces : Nat
  enums : Nat
  interfaces : Nat
  examples : Nat
  codeSnippets : Nat
deriving DecidableEq

/-- Source `getStatistics()`: the `examples.reduce((t, ex) => t + ex.codeSnippets.length, 0)`
step throws on a `null` example or a missing `codeSnippets` array, and the
method body has no `try`/`catch`, so the fault propagates to the caller. -/
def getStatisticsPub (apiData classes methods properties namespaces enums interfaces :
    List (Option DynRecord)) (examples : List (Option DynExample)) :
    Except JsError Stats := do
  let codeSnippets ← examples.foldlM (fun total ex? => do
    let ex ← jsObj ex?
    let cs ← jsObj ex.codeSnippets
    return total + cs.length) 0
  return { totalItems := apiData.length, classes := classes.length,
           methods := methods.length, properties := properties.length,
           namespaces := namespaces.length, enums := enums.length,
           interfaces := interfaces.length, examples := examples.length,
           codeSnippets := codeSnippets }

/-! ### `search` (dynamic) -/

/-- Spread of a possibly-`null` object (`{...null}` is `{}`). -/
def spreadDyn : Option DynRecord → DynRecord
  | some it => it
  | none => {}

/-- The enrichment step of `search` over dynamic records.  The `find`
callback compares `apiItem.id === item.id || apiItem.name === item.name`
(property reads, which throw only on a `null` object); the
`fullItem?.normalizedNamespace || item.namespace || ''` chain reads
`item.namespace` only when the first operand is falsy. -/
def searchMapDynE (apiData : List (Option DynRecord)) (item? : Option DynRecord) :
    Except JsError DynRecord := do
  let fullItem ← findE (fun a? => do
    let a ← jsObj a?
    let it ← jsObj item?
    return (a.id == it.id || a.name == it.name)) apiData
  let v1 : Option String := match fullItem with
    | some (some f) => f.normalizedNamespace
    | some none => none     -- unreachable: the callback throws on a null slot
    | none => none
  let nn ← match v1 with
    | some s =>
      if s != "" then pure s
      else do
        let it ← jsObj item?
        pure (match it.ns with | some t => if t != "" then t else "" | none => "")
    | none => do
      let it ← jsObj item?
      pure (match it.ns with | some t => if t != "" then t else "" | none => "")
  return { spreadDyn item? with normalizedNamespace := some nn }

/-- View of a converted search result as a dynamic record (every field
present). -/
def dynOfSearchRec (r : SearchResultRec) : DynRecord :=
  { id := some r.id, title := some r.title, name := some r.name, ty := some r.ty,
    ns := r.ns, normalizedNamespace := some r.normalizedNamespace,
    summary := r.summary, description := r.description,
    htmlFile := some r.htmlFile }

/-- The combine-and-deduplicate loop of `search` over dynamic records. -/
def mergeOnlineDyn (limit : Nat) : List DynRecord → List String → List DynRecord →
    List DynRecord
  | combined, _, [] => combined
  | combined, seen, o :: rest =>
    let t := jsToLower (optStr o.title)
    if !(seen.contains t) && combined.length < limit then
      mergeOnlineDyn limit (combined ++ [o]) (seen ++ [t]) rest
    else mergeOnlineDyn limit combined seen rest

/-- Body of `search` (inside the `try`), given the ranked index answer. -/
def searchBody (ranked apiData : List (Option DynRecord)) (fb : FallbackState)
    (query ty : String) (limit : Nat) :
    Except JsError (List DynRecord × FallbackState) := do
  let filteredResults ← mapE (searchMapDynE apiData) ranked
  let filteredResults :=
    if ty != "all" then filteredResults.filter fun it => it.ty == some ty
    else filteredResults
  let localResults := filteredResults.take limit
  let localViews := localResults.map fun r =>
    ({ ns := r.ns, summary := r.summary, description := r.description } : LocalResult)
  if shouldUseFallback localViews query then do
    let (onlineResults, fb') := searchOnline fb query ty limit
    -- `localResults.map(r => r.title.toLowerCase())` throws on a missing title
    let existingTitles ← mapE (fun r => do
      let t ← jsStr r.title
      return jsToLower t) localResults
    let converted := (convertOnlineResults onlineResults).map dynOfSearchRec
    return (mergeOnlineDyn limit localResults existingTitles converted, fb')
  else return (localResults, fb)

/-- Source `search` with its `catch`: an internal error delegates the whole query
to the online fallback (it does NOT return the empty list). -/
def searchPub (ranked apiData : List (Option DynRecord)) (fb : FallbackState)
    (query ty : String) (limit : Nat) :
    Except JsError (List DynRecord × FallbackState) :=
  match searchBody ranked apiData fb query ty limit with
  | Except.ok v => Except.ok v
  | Except.error _ =>
    let (onlineResults, fb') := searchOnline fb query ty limit
    Except.ok ((convertOnlineResults onlineResults).map dynOfSearchRec, fb')

/-! ### `getClassDetails` (dynamic) -/

/-- Pass-1 callback (short-circuits: `item.id` is only read when the two
`item.name` tests fail). -/
def exactPassDynE (searchTerm : String) (it? : Option DynRecord) : Except JsError Bool := do
  let it ← jsObj it?
  let nm ← jsStr it.name
  if jsToLower nm == searchTerm ++ " class" then return true
  else if jsToLower nm == searchTerm then return true
  else do
    let idv ← jsStr it.id
    return jsToLower idv == searchTerm ++ " class"

/-- Pass-2 callback (the source fetches `name` and `id` up front). -/
def wbPassDynE (searchTerm : String) (it? : Option DynRecord) : Except JsError Bool := do
  let it ← jsObj it?
  let nm ← jsStr it.name
  let idv ← jsStr it.id
  let name := jsToLower nm
  let id := jsToLower idv
  return name == searchTerm ++ " class" || id == searchTerm ++ " class" ||
    jsStartsWith name (searchTerm ++ " ") || jsEndsWith name (" " ++ searchTerm) ||
    (strContains name (" " ++ searchTerm ++ " ") || strContains name (" " ++ searchTerm ++ "class"))

/-- Pass-3 callback (short-circuits before reading `item.id`). -/
def broadPassDynE (searchTerm : String) (it? : Option DynRecord) : Except JsError Bool := do
  let it ← jsObj it?
  let nm ← jsStr it.name
  if strContains (jsToLower nm) searchTerm then return true
  else do
    let idv ← jsStr it.id
    return strContains (jsToLower idv) searchTerm

/-- Source `item.namespace?.includes(pat)` on a candidate. -/
def nsContainsDynE (it? : Option DynRecord) (pat : String) : Except JsError Bool := do
  let it ← jsObj it?
  return (match it.ns with | some s => strContains s pat | none => false)

/-- Poor-quality gate of `getClassDetails` (truthiness only, never throws
on a non-`null` record). -/
def hasPoorQualityDyn (it : DynRecord) : Bool :=
  (match it.ns with | none => true | some s => s == "") ||
  it.ns == some "N/A" ||
  (match it.summary with | none => false | some s => s != "" && strContains s "Copyright ©")

/-- Shape of a dynamic `getClassDetails` answer. -/
inductive DynClassDetailsResult where
  | nullResult : DynClassDetailsResult
  | onlineNew : OnlineApiResult → DynClassDetailsResult
  | onlineMerged : OnlineApiResult → Option Nat → List (Option DynRecord) → DynClassDetailsResult
  | localItem : DynRecord → DynClassDetailsResult
deriving DecidableEq

/-- Body of `getClassDetails` (inside the outermost `try`), over dynamic
records; returns the answer and the possibly-mutated store. -/
def getClassDetailsBody (parse : String → Option DetailedClassInfo)
    (classes apiData : List (Option DynRecord)) (className : String) (includeMembers : Bool) :
    Except JsError (DynClassDetailsResult × List (Option DynRecord)) := do
  let searchTerm := jsToLower className
  let e ← filterE (fun p => exactPassDynE searchTerm p.2) classes.enum
  let classItems ←
    if e.length == 0 then do
      let w ← filterE (fun p => wbPassDynE searchTerm p.2) classes.enum
      if w.length == 0 then filterE (fun p => broadPassDynE searchTerm p.2) classes.enum
      else pure w
    else pure e
  let sel ←
    if 1 < classItems.length then do
      let modelMatch ← findE (fun p => nsContainsDynE p.2 "Tekla.Structures.Model") classItems
      let drawingMatch ← findE (fun p => nsContainsDynE p.2 "Tekla.Structures.Drawing") classItems
      match modelMatch, drawingMatch with
      | some m, some _ => pure (some m)
      | _, _ => pure classItems.head?
    else pure classItems.head?
  match sel with
  | none => return (DynClassDetailsResult.onlineNew (simulateClassDetails className), classes)
  | some (i, it?) => do
    let classItem ← jsObj it?
    if hasPoorQualityDyn classItem then do
      let onlineResult := simulateClassDetails className
      let classMembers ← if includeMembers then
          filterE (fun a? => do
            let a ← jsObj a?
            if a.ns == classItem.ns then
              if a.ty == some "method" || a.ty == some "property" then do
                let nm ← jsStr a.name
                return strContains (jsToLower nm) searchTerm
              else return false
            else return false) apiData
        else pure []
      return (DynClassDetailsResult.onlineMerged onlineResult classItem.level classMembers,
              classes)
    else
      if includeMembers && (match classItem.htmlFile with | some f => f != "" | none => false) then
        match classItem.htmlFile with
        | some f =>
          match parse f with
          | some detailedInfo =>
            let it' := { classItem with detailedInfo := some detailedInfo }
            return (DynClassDetailsResult.localItem it', classes.set i (some it'))
          | none => return (DynClassDetailsResult.localItem classItem, classes)
        | none => return (DynClassDetailsResult.localItem classItem, classes)
      else return (DynClassDetailsResult.localItem classItem, classes)

/-- Source `getClassDetails` with its outermost `catch` (returns `null`; a fault
can only occur before the store mutation, so the store is unchanged). -/
def getClassDetailsPub (parse : String → Option DetailedClassInfo)
    (classes apiData : List (Option DynRecord)) (className : String) (includeMembers : Bool) :
    Except JsError (DynClassDetailsResult × List (Option DynRecord)) :=
  match getClassDetailsBody parse classes apiData className includeMembers with
  | Except.ok v => Except.ok v
  | Except.error _ => Except.ok (DynClassDetailsResult.nullResult, classes)

/-! ## General lemmas about the embedded operations -/

section Lemmas

/-- Source `enum` of a pointwise update is a pointwise update of `enum`. -/
theorem enum_set (l : List α) (i : Nat) (a' : α) :
    (l.set i a').enum = l.enum.map (fun p => if p.1 = i then (i, a') else p) := by
  apply List.ext_get?
  intro n
  rw [List.get?_enum, List.get?_map, List.get?_enum, List.get?_set]
  by_cases h : i = n
  · subst h
    cases l.get? i <;> simp
  · cases l.get? n with
    | none => simp [h]
    | some v =>
      simp only [h, if_false, Option.map_some']
      have : ¬n = i := fun hn => h hn.symm
      simp [this]

/-- Filtering the enumerated store after updating slot `i` with an element
on which the predicate agrees. -/
theorem filter_enum_set (P : α → Bool) (l : List α) (i : Nat) (item a' : α)
    (hP : P a' = P item) (hi : l.get? i = some item) :
    (l.set i a').enum.filter (fun p => P p.2) =
      (l.enum.filter (fun p => P p.2)).map (fun p => if p.1 = i then (i, a') else p) := by
  rw [enum_set, List.filter_map]
  congr 1
  apply List.filter_congr
  intro p hp
  by_cases h : p.1 = i
  · have hmem : (p.1, p.2) ∈ l.enum := hp
    rw [List.mk_mem_enum_iff_get?] at hmem
    rw [h, hi] at hmem
    cases hmem
    simp [Function.comp, h, hP]
  · simp [Function.comp, h]

/-- Source `find?` over a mapped list when the predicate is stable under the map
on every element. -/
theorem find?_map_pred (f : α → α) (p : α → Bool) (l : List α)
    (h : ∀ x ∈ l, p (f x) = p x) :
    List.find? p (l.map f) = (List.find? p l).map f := by
  induction l with
  | nil => rfl
  | cons x xs ih =>
    simp only [List.map_cons, List.find?]
    rw [h x (List.mem_cons_self x xs)]
    by_cases hx : p x = true
    · simp [hx]
    · simp only [Bool.not_eq_true] at hx
      simp only [hx]
      exact ih fun y hy => h y (List.mem_cons_of_mem _ hy)

/-- Every candidate pair returned by `classCandidates` indexes its own
element of the store. -/
theorem mem_classCandidates_get? {classes : List ApiItem} {query : String}
    {p : Nat × ApiItem} (h : p ∈ classCandidates classes query) :
    classes.get? p.1 = some p.2 := by
  have henum : p ∈ classes.enum := by
    simp only [classCandidates] at h
    split at h
    · exact List.mem_of_mem_filter h
    · split at h
      · exact List.mem_of_mem_filter h
      · exact List.mem_of_mem_filter h
  have : (p.1, p.2) ∈ classes.enum := henum
  exact List.mk_mem_enum_iff_get?.mp this

/-- An element delivered by `head?` is a member. -/
theorem mem_of_head?_eq_some {l : List α} {a : α} (h : l.head? = some a) : a ∈ l := by
  cases l with
  | nil => simp at h
  | cons x t =>
    simp only [List.head?] at h
    cases h
    exact List.mem_cons_self _ _

/-- The selected candidate is one of the candidates. -/
theorem selectClass_mem {classes : List ApiItem} {query : String} {c : Nat × ApiItem}
    (h : selectClass classes query = some c) : c ∈ classCandidates classes query := by
  simp only [selectClass] at h
  split at h
  · split at h
    · exact List.mem_of_find?_eq_some h
    · exact mem_of_head?_eq_some h
  · exact mem_of_head?_eq_some h

/-- The selected candidate indexes its own element of the store. -/
theorem selectClass_get? {classes : List ApiItem} {query : String} {i : Nat} {item : ApiItem}
    (h : selectClass classes query = some (i, item)) : classes.get? i = some item :=
  mem_classCandidates_get? (selectClass_mem h)

/-- Updating the detail cache of a record changes none of the fields the
matching passes, the namespace tests or the quality gate read. -/
theorem predicates_ignore_detailedInfo (item : ApiItem) (d : Option DetailedClassInfo)
    (q pat : String) :
    exactClassMatch q { item with detailedInfo := d } = exactClassMatch q item ∧
    wordBoundaryClassMatch q { item with detailedInfo := d } = wordBoundaryClassMatch q item ∧
    broadClassMatch q { item with detailedInfo := d } = broadClassMatch q item ∧
    nsContains { item with detailedInfo := d } pat = nsContains item pat ∧
    hasPoorQualityItem { item with detailedInfo := d } = hasPoorQualityItem item :=
  ⟨rfl, rfl, rfl, rfl, rfl⟩

/-- The staged candidate list after a detail-cache update of slot `i`. -/
theorem classCandidates_set {classes : List ApiItem} (query : String) {i : Nat}
    {item : ApiItem} (d : Option DetailedClassInfo)
    (hi : classes.get? i = some item) :
    classCandidates (classes.set i { item with detailedInfo := d }) query =
      (classCandidates classes query).map
        (fun p => if p.1 = i then (i, { item with detailedInfo := d }) else p) := by
  simp only [classCandidates]
  rw [filter_enum_set (fun it => exactClassMatch query it) classes i item
        { item with detailedInfo := d } rfl hi,
      filter_enum_set (fun it => wordBoundaryClassMatch query it) classes i item
        { item with detailedInfo := d } rfl hi,
      filter_enum_set (fun it => broadClassMatch query it) classes i item
        { item with detailedInfo := d } rfl hi]
  by_cases he : classes.enum.filter (fun p => exactClassMatch query p.2) = []
  · by_cases hw : classes.enum.filter (fun p => wordBoundaryClassMatch query p.2) = []
    · simp [he, hw]
    · simp [he, hw]
  · simp [he]

/-- Selection is unchanged (up to the updated payload) by a detail-cache
update of the selected slot. -/
theorem selectClass_set {classes : List ApiItem} {query : String} {i : Nat} {item : ApiItem}
    (d : Option DetailedClassInfo) (hsel : selectClass classes query = some (i, item)) :
    selectClass (classes.set i { item with detailedInfo := d }) query =
      some (i, { item with detailedInfo := d }) := by
  have hi : classes.get? i = some item := selectClass_get? hsel
  have hmap := classCandidates_set query d hi
  set f : Nat × ApiItem → Nat × ApiItem :=
    fun p => if p.1 = i then (i, { item with detailedInfo := d }) else p with hf
  have hfsel : f (i, item) = (i, { item with detailedInfo := d }) := by simp [hf]
  have hstable : ∀ pat : String, ∀ p ∈ classCandidates classes query,
      (fun p => nsContains p.2 pat) (f p) = (fun p => nsContains p.2 pat) p := by
    intro pat p hp
    by_cases hpi : p.1 = i
    · have hpl := mem_classCandidates_get? hp
      rw [hpi, hi] at hpl
      have hp2 : p.2 = item := by
        injection hpl with hpl
        exact hpl.symm
      simp [hf, hpi, hp2]
      rfl
    · simp [hf, hpi]
  simp only [selectClass, hmap, List.length_map]
  simp only [selectClass] at hsel
  rw [find?_map_pred f _ _ (hstable "Tekla.Structures.Model"),
      find?_map_pred f _ _ (hstable "Tekla.Structures.Drawing"),
      List.head?_map, Option.isSome_map', Option.isSome_map']
  split at hsel
  next hlen =>
    rw [if_pos hlen]
    split at hsel
    next hboth =>
      rw [if_pos hboth]
      rw [hsel, Option.map_some', hfsel]
    next hboth =>
      rw [if_neg hboth]
      rw [hsel, Option.map_some', hfsel]
  next hlen =>
    rw [if_neg hlen]
    rw [hsel, Option.map_some', hfsel]

end Lemmas

/-! ## Claim theorems -/

/-- Low-quality predicate as the SPEC words it (for claim C2): namespace
missing/empty or the `"N/A"` placeholder, or the boilerplate copyright
marker in summary or description. -/
def lowQualitySpec (r : LocalResult) : Prop :=
  r.ns = none ∨ r.ns = some "" ∨ r.ns = some "N/A" ∨
  (∃ s, r.summary = some s ∧ strContains s "Copyright ©" = true) ∨
  (∃ s, r.description = some s ∧ strContains s "Copyright ©" = true)

/-- The `s != '' &&` truthiness guard in `isPoorQuality` is redundant: the
empty string contains no marker. -/
theorem bne_empty_and_contains_copyright (s : String) :
    ((s != "") && strContains s "Copyright ©") = strContains s "Copyright ©" := by
  by_cases h : s = ""
  · subst h; decide
  · simp [bne_iff_ne, h]

/-- The source predicate agrees with the spec wording. -/
theorem isPoorQuality_iff_lowQualitySpec (r : LocalResult) :
    isPoorQuality r = true ↔ lowQualitySpec r := by
  obtain ⟨ns, summary, description⟩ := r
  simp only [isPoorQuality, lowQualitySpec, Bool.or_eq_true]
  cases ns <;> cases summary <;> cases description <;>
    simp [beq_iff_eq, bne_empty_and_contains_copyright] <;> tauto

/-- Source `shouldUseFallback` decides exactly "empty, or strictly more than half
poor-quality" (floating `count/length > 0.5` is `length < 2*count`). -/
theorem shouldUseFallback_iff (l : List LocalResult) (q : String) :
    shouldUseFallback l q = true ↔
      (l = [] ∨ l.length < 2 * (l.filter isPoorQuality).length) := by
  simp only [shouldUseFallback]
  by_cases hl : l.length = 0
  · have hnil : l = [] := List.length_eq_zero.mp hl
    subst hnil
    simp
  · have hne : l ≠ [] := fun h => hl (by simp [h])
    rw [if_neg (by simpa using hl)]
    by_cases hc : l.length < 2 * (l.filter isPoorQuality).length
    · simp [hc, hne]
    · simp [hc, hne]

/-- C2: `shouldUseFallback(localResults, query)` is a pure decision
function returning true exactly when `localResults` is empty or strictly
more than half of its elements are low-quality, where low-quality is
namespace missing/empty/`"N/A"` or a boilerplate-copyright summary or
description; including the three concrete cases of the spec. -/
theorem claim_C2_shouldUseFallback :
    (∀ r, isPoorQuality r = true ↔ lowQualitySpec r) ∧
    (∀ l q, shouldUseFallback l q = true ↔
      (l = [] ∨ l.length < 2 * (l.filter isPoorQuality).length)) ∧
    shouldUseFallback [] "X" = true ∧
    shouldUseFallback [{ ns := some "N/A", summary := none, description := none }] "X" = true ∧
    shouldUseFallback
      [{ ns := some "Tekla.Structures.Model", summary := none, description := none }] "X" = false :=
  ⟨isPoorQuality_iff_lowQualitySpec, shouldUseFallback_iff, by decide, by decide, by decide⟩

/-- C7: the TOC classifier returns exactly the kind of the spec's §4.2
table (first matching row, i.e. the table's precedence order, resolves a
double match deterministically; no row means "other"), including the
ambiguous `" Properties"` vs `" Property "` double match. -/
theorem claim_C7_classifier :
    (∀ name, determineItemType name = classifyTableSpec name) ∧
    determineItemType "Width Property Properties" = "properties-collection" := by
  constructor
  · intro n
    simp only [determineItemType, classifyTableSpec, kindTableSpec, List.find?]
    by_cases h1 : (n == "Tekla.Structures" || strContains n "Namespace") = true
    · simp [h1]
    · simp only [Bool.not_eq_true] at h1
      simp only [h1]
      by_cases h2 : (strContains n " Class" && !strContains n " Classes") = true
      · simp [h2]
      · simp only [Bool.not_eq_true] at h2
        simp only [h2]
        by_cases h3 : (strContains n " Interface" && !strContains n " Interfaces") = true
        · simp [h3]
        · simp only [Bool.not_eq_true] at h3
          simp only [h3]
          by_cases h4 : (strContains n " Enumeration" || strContains n " Enum") = true
          · simp [h4]
          · simp only [Bool.not_eq_true] at h4
            simp only [h4]
            by_cases h5 : (strContains n " Properties" || strContains n " Members") = true
            · simp [h5]
            · simp only [Bool.not_eq_true] at h5
              simp only [h5]
              by_cases h6 : strContains n " Methods" = true
              · simp [h6]
              · simp only [Bool.not_eq_true] at h6
                simp only [h6]
                by_cases h7 : strContains n " Property " = true
                · simp [h7]
                · simp only [Bool.not_eq_true] at h7
                  simp only [h7]
                  by_cases h8 : (strContains n " Method " || strContains n " Constructor ") = true
                  · simp [h8]
                  · simp only [Bool.not_eq_true] at h8
                    simp only [h8]
                    by_cases h9 : strContains n " Event " = true
                    · simp [h9]
                    · simp only [Bool.not_eq_true] at h9
                      simp only [h9]
                      by_cases h10 : strContains n " Field " = true
                      · simp [h10]
                      · simp only [Bool.not_eq_true] at h10
                        simp only [h10]
                        by_cases h11 : strContains n " Delegate " = true
                        · simp [h11]
                        · simp only [Bool.not_eq_true] at h11
                          simp [h11]
  · decide

/-- Cache lookup after the single kind of insertion the source performs. -/
theorem lookupFb_insert (st : FallbackState) (key k : String) (v : List OnlineApiResult) :
    lookupFb (insertFb st key v) k =
      match lookupFb st k with
      | some w => some w
      | none => if key == k then some v else none := by
  induction st with
  | nil => rfl
  | cons p rest ih =>
    obtain ⟨pk, pv⟩ := p
    simp only [insertFb, List.cons_append, lookupFb]
    by_cases h : pk == k
    · simp [h]
    · simp only [h, if_false, Bool.false_eq_true]
      exact ih

/-- C9 (amended): the fallback caches `searchOnline` answers for the
process lifetime under the key string `query-type-limit`: a repeat call
with the same triple returns the first answer with no state change; no
cache entry is ever removed or changed; and a call leaves every OTHER key
string untouched.  (Isolation holds per key string, not per triple: the
key is built by `-`-concatenation, so distinct triples can collide — see
the counterexample.) -/
theorem claim_C9_fallback_cache :
    (∀ st q ty n,
      searchOnline (searchOnline st q ty n).2 q ty n =
        ((searchOnline st q ty n).1, (searchOnline st q ty n).2)) ∧
    (∀ st q ty n k v, lookupFb st k = some v →
      lookupFb (searchOnline st q ty n).2 k = some v) ∧
    (∀ st q ty n k, k ≠ cacheKey q ty n →
      lookupFb (searchOnline st q ty n).2 k = lookupFb st k) := by
  refine ⟨?_, ?_, ?_⟩
  · intro st q ty n
    simp only [searchOnline]
    cases hlk : lookupFb st (cacheKey q ty n) with
    | some v => simp [hlk]
    | none =>
      simp only [hlk]
      rw [lookupFb_insert, hlk]
      simp
  · intro st q ty n k v hv
    simp only [searchOnline]
    cases hlk : lookupFb st (cacheKey q ty n) with
    | some w => simpa using hv
    | none =>
      simp only
      rw [lookupFb_insert, hv]
  · intro st q ty n k hk
    simp only [searchOnline]
    cases hlk : lookupFb st (cacheKey q ty n) with
    | some w => rfl
    | none =>
      simp only
      rw [lookupFb_insert]
      cases hv : lookupFb st k with
      | some w => rfl
      | none =>
        have : (cacheKey q ty n == k) = false := by
          simp [beq_eq_false_iff_ne]
          exact fun h => hk h.symm
        simp [this]

/-- C9 counterexample: the triples ("a-b","c",1) and ("a","b-c",1) are
different, yet the second call observes the first call's cached answer
(their key strings collide), instead of its own fresh answer. -/
theorem claim_C9_counterexample :
    (searchOnline (searchOnline emptyFallbackState "a-b" "c" 1).2 "a" "b-c" 1).1 =
      (searchOnline emptyFallbackState "a-b" "c" 1).1 ∧
    (searchOnline (searchOnline emptyFallbackState "a-b" "c" 1).2 "a" "b-c" 1).1 ≠
      simulateOnlineResults "a" "b-c" 1 := by
  constructor
  · rfl
  · decide

/-- C9 witness: monotonicity of the cache applied at a concrete state. -/
theorem claim_C9_witness :
    lookupFb (searchOnline (insertFb emptyFallbackState "k" []) "q" "all" 3).2 "k" = some [] :=
  claim_C9_fallback_cache.2.1 (insertFb emptyFallbackState "k" []) "q" "all" 3 "k" [] (by decide)

/-- C10: `browseNamespace` never returns a record whose namespace is
missing or empty, for any prefix (including `""`) and any
`includeMembers`: the JS truthiness test `item.namespace && ...` filters
those out even though every namespace starts with the empty prefix. -/
theorem claim_C10_browseNamespace (apiData : List ApiItem) (ns : String)
    (includeMembers : Bool) (r : ApiItem)
    (hr : r ∈ browseNamespaceM apiData ns includeMembers) :
    ∃ s, r.ns = some s ∧ s ≠ "" := by
  simp only [browseNamespaceM] at hr
  have hmem : r ∈ apiData.filter fun it =>
      match it.ns with
      | some s => s != "" && jsStartsWith (jsToLower s) (jsToLower ns)
      | none => false := by
    cases includeMembers with
    | true => simpa using hr
    | false =>
      simp only [Bool.not_false, if_pos] at hr
      exact List.mem_of_mem_filter hr
  have hpred := (List.mem_filter.mp hmem).2
  cases hns : r.ns with
  | none => rw [hns] at hpred; simp at hpred
  | some s =>
    rw [hns] at hpred
    simp only [Bool.and_eq_true, bne_iff_ne] at hpred
    exact ⟨s, rfl, hpred.1⟩

/-- Fixture records for the C10 witness. -/
def c10good : ApiItem :=
  { id := "T_Beam", name := "Beam Class", title := "Beam Class", ty := "class",
    ns := some "Tekla.Structures.Model", normalizedNamespace := "Tekla.Structures.Model",
    summary := none, description := none, level := 0, htmlFile := "", detailedInfo := none }

def c10bad : ApiItem :=
  { id := "T_Bad", name := "Bad Class", title := "Bad Class", ty := "class",
    ns := none, normalizedNamespace := "", summary := none, description := none,
    level := 0, htmlFile := "", detailedInfo := none }

def c10empty : ApiItem :=
  { id := "T_Empty", name := "Empty Class", title := "Empty Class", ty := "class",
    ns := some "", normalizedNamespace := "", summary := none, description := none,
    level := 0, htmlFile := "", detailedInfo := none }

/-- C10 witness: the theorem applied to a concrete store browsed with the
empty prefix. -/
theorem claim_C10_witness : ∃ s, c10good.ns = some s ∧ s ≠ "" :=
  claim_C10_browseNamespace [c10bad, c10good, c10empty] "" true c10good (by decide)

/-! ### C1 — word-boundary class matching -/

/-- Case split on which pass produced the candidate list. -/
theorem classCandidates_cases (classes : List ApiItem) (query : String) :
    (classes.enum.filter (fun p => exactClassMatch query p.2) ≠ [] ∧
      classCandidates classes query =
        classes.enum.filter (fun p => exactClassMatch query p.2)) ∨
    (classes.enum.filter (fun p => exactClassMatch query p.2) = [] ∧
      classes.enum.filter (fun p => wordBoundaryClassMatch query p.2) ≠ [] ∧
      classCandidates classes query =
        classes.enum.filter (fun p => wordBoundaryClassMatch query p.2)) ∨
    (classes.enum.filter (fun p => exactClassMatch query p.2) = [] ∧
      classes.enum.filter (fun p => wordBoundaryClassMatch query p.2) = [] ∧
      classCandidates classes query =
        classes.enum.filter (fun p => broadClassMatch query p.2)) := by
  simp only [classCandidates]
  by_cases he : classes.enum.filter (fun p => exactClassMatch query p.2) = []
  · by_cases hw : classes.enum.filter (fun p => wordBoundaryClassMatch query p.2) = []
    · right; right
      exact ⟨he, hw, by simp [he, hw]⟩
    · right; left
      exact ⟨he, hw, by simp [he, hw]⟩
  · left
    exact ⟨he, by simp [he]⟩

/-- Fixture: the two records of the spec's word-boundary scenario. -/
def beamClassItem : ApiItem :=
  { id := "Beam Class", name := "Beam Class", title := "Beam Class", ty := "class",
    ns := some "Tekla.Structures.Model", normalizedNamespace := "Tekla.Structures.Model",
    summary := some "Represents a beam.", description := none, level := 2,
    htmlFile := "beam.htm", detailedInfo := none }

def analysisBeamItem : ApiItem :=
  { id := "AnalysisCompositeBeam Class", name := "AnalysisCompositeBeam Class",
    title := "AnalysisCompositeBeam Class", ty := "class",
    ns := some "Tekla.Structures.Model", normalizedNamespace := "Tekla.Structures.Model",
    summary := some "Represents a composite beam.", description := none, level := 2,
    htmlFile := "acb.htm", detailedInfo := none }

/-- C1: on the spec's two-record store, `getClassDetails("Beam")` selects
the `"Beam Class"` record (hence never the `"AnalysisCompositeBeam Class"`
one); and in general a selected record is an exact match whenever any
exact match exists, a word-boundary match whenever no exact but some
word-boundary match exists, and the broad substring pass can only have
been used when the exact and word-boundary passes both yielded zero
candidates. -/
theorem claim_C1_word_boundary :
    (selectClass [beamClassItem, analysisBeamItem] "Beam" = some (0, beamClassItem)) ∧
    (∀ classes query i it, selectClass classes query = some (i, it) →
      (∃ p ∈ classes.enum, exactClassMatch query p.2 = true) →
      exactClassMatch query it = true) ∧
    (∀ classes query i it, selectClass classes query = some (i, it) →
      (∀ p ∈ classes.enum, exactClassMatch query p.2 = false) →
      (∃ p ∈ classes.enum, wordBoundaryClassMatch query p.2 = true) →
      wordBoundaryClassMatch query it = true) ∧
    (∀ classes query i it, selectClass classes query = some (i, it) →
      exactClassMatch query it = false → wordBoundaryClassMatch query it = false →
      ∀ p ∈ classes.enum,
        exactClassMatch query p.2 = false ∧ wordBoundaryClassMatch query p.2 = false) := by
  refine ⟨by decide, ?_, ?_, ?_⟩
  · intro classes query i it hsel hex
    have hmem := selectClass_mem hsel
    obtain ⟨p, hp, hpx⟩ := hex
    have hne : classes.enum.filter (fun p => exactClassMatch query p.2) ≠ [] := by
      intro hnil
      rw [List.filter_eq_nil_iff] at hnil
      exact absurd hpx (by simpa using hnil p hp)
    rcases classCandidates_cases classes query with ⟨_, hc⟩ | ⟨he, _, _⟩ | ⟨he, _, _⟩
    · rw [hc] at hmem
      exact (List.mem_filter.mp hmem).2
    · exact absurd he hne
    · exact absurd he hne
  · intro classes query i it hsel hnoex hwb
    have hmem := selectClass_mem hsel
    have he : classes.enum.filter (fun p => exactClassMatch query p.2) = [] := by
      rw [List.filter_eq_nil_iff]
      intro p hp
      simp [hnoex p hp]
    obtain ⟨p, hp, hpw⟩ := hwb
    have hwne : classes.enum.filter (fun p => wordBoundaryClassMatch query p.2) ≠ [] := by
      intro hnil
      rw [List.filter_eq_nil_iff] at hnil
      exact absurd hpw (by simpa using hnil p hp)
    rcases classCandidates_cases classes query with ⟨hene, _⟩ | ⟨_, _, hc⟩ | ⟨_, hw, _⟩
    · exact absurd he hene
    · rw [hc] at hmem
      exact (List.mem_filter.mp hmem).2
    · exact absurd hw hwne
  · intro classes query i it hsel hitx hitw
    have hmem := selectClass_mem hsel
    rcases classCandidates_cases classes query with ⟨_, hc⟩ | ⟨_, _, hc⟩ | ⟨he, hw, _⟩
    · rw [hc] at hmem
      exact absurd ((List.mem_filter.mp hmem).2) (by simp [hitx])
    · rw [hc] at hmem
      exact absurd ((List.mem_filter.mp hmem).2) (by simp [hitw])
    · intro p hp
      rw [List.filter_eq_nil_iff] at he hw
      constructor
      · simpa using he p hp
      · simpa using hw p hp

/-- C1 witness: exact-pass priority applied on the concrete two-record
store. -/
theorem claim_C1_witness : exactClassMatch "Beam" beamClassItem = true :=
  claim_C1_word_boundary.2.1 [beamClassItem, analysisBeamItem] "Beam" 0 beamClassItem
    (by decide) ⟨(0, beamClassItem), by decide, by decide⟩

/-! ### C3 — multi-candidate disambiguation -/

/-- Fixture: identical-name records in the drawing and modeling namespaces
(drawing FIRST in store order, so the bias is observable). -/
def columnDrawingItem : ApiItem :=
  { id := "Column Class", name := "Column Class", title := "Column Class", ty := "class",
    ns := some "Tekla.Structures.Drawing", normalizedNamespace := "Tekla.Structures.Drawing",
    summary := none, description := none, level := 2, htmlFile := "colD.htm",
    detailedInfo := none }

def columnModelItem : ApiItem :=
  { id := "Column Class M", name := "Column Class", title := "Column Class", ty := "class",
    ns := some "Tekla.Structures.Model", normalizedNamespace := "Tekla.Structures.Model",
    summary := none, description := none, level := 2, htmlFile := "colM.htm",
    detailedInfo := none }

/-- C3 (amended): with several candidates, whenever some candidate's
namespace contains the modeling namespace AND some candidate's namespace
contains the drawing namespace — however many namespaces are represented —
the FIRST modeling-namespace candidate is selected; otherwise (and with at
most one candidate) the first candidate in store order is selected.  The
spec's concrete Column scenario selects the modeling-namespace record. -/
theorem claim_C3_disambiguation :
    (selectClass [columnDrawingItem, columnModelItem] "Column" = some (1, columnModelItem)) ∧
    (∀ classes query, 1 < (classCandidates classes query).length →
      (∃ p ∈ classCandidates classes query, nsContains p.2 "Tekla.Structures.Model" = true) →
      (∃ p ∈ classCandidates classes query, nsContains p.2 "Tekla.Structures.Drawing" = true) →
      selectClass classes query =
        (classCandidates classes query).find?
          (fun p => nsContains p.2 "Tekla.Structures.Model") ∧
      ∃ m, selectClass classes query = some m ∧
        nsContains m.2 "Tekla.Structures.Model" = true) ∧
    (∀ classes query, 1 < (classCandidates classes query).length →
      (¬(∃ p ∈ classCandidates classes query, nsContains p.2 "Tekla.Structures.Model" = true) ∨
       ¬(∃ p ∈ classCandidates classes query, nsContains p.2 "Tekla.Structures.Drawing" = true)) →
      selectClass classes query = (classCandidates classes query).head?) ∧
    (∀ classes query, (classCandidates classes query).length ≤ 1 →
      selectClass classes query = (classCandidates classes query).head?) := by
  refine ⟨by decide, ?_, ?_, ?_⟩
  · intro classes query hlen hm hd
    have hms : ((classCandidates classes query).find?
        (fun p => nsContains p.2 "Tekla.Structures.Model")).isSome := by
      rw [List.find?_isSome]; exact hm
    have hds : ((classCandidates classes query).find?
        (fun p => nsContains p.2 "Tekla.Structures.Drawing")).isSome := by
      rw [List.find?_isSome]; exact hd
    have hsel : selectClass classes query =
        (classCandidates classes query).find?
          (fun p => nsContains p.2 "Tekla.Structures.Model") := by
      simp only [selectClass]
      rw [if_pos hlen, if_pos (by rw [hms, hds]; rfl)]
    refine ⟨hsel, ?_⟩
    obtain ⟨m, hmeq⟩ := Option.isSome_iff_exists.mp hms
    have hmns := List.find?_some hmeq
    exact ⟨m, by rw [hsel, hmeq], by simpa using hmns⟩
  · intro classes query hlen hno
    simp only [selectClass]
    rw [if_pos hlen, if_neg ?_]
    intro hb
    rw [Bool.and_eq_true] at hb
    cases hno with
    | inl h => exact h (List.find?_isSome.mp hb.1)
    | inr h => exact h (List.find?_isSome.mp hb.2)
  · intro classes query hlen
    simp only [selectClass]
    rw [if_neg (by omega)]

/-- Fixture: a third identical-name record in the plugins namespace. -/
def columnPluginsItem : ApiItem :=
  { id := "Column Class P", name := "Column Class", title := "Column Class", ty := "class",
    ns := some "Tekla.Structures.Plugins", normalizedNamespace := "Tekla.Structures.Plugins",
    summary := none, description := none, level := 2, htmlFile := "colP.htm",
    detailedInfo := none }

/-- C3 counterexample: with THREE namespaces represented (plugins record
first in store order) the "exactly two namespaces" premise of the claim
fails, so the claim requires the first candidate — but the code still
selects the modeling-namespace candidate at index 1. -/
theorem claim_C3_counterexample :
    selectClass [columnPluginsItem, columnModelItem, columnDrawingItem] "Column" =
      some (1, columnModelItem) ∧
    (classCandidates [columnPluginsItem, columnModelItem, columnDrawingItem] "Column").head? =
      some (0, columnPluginsItem) ∧
    columnModelItem ≠ columnPluginsItem ∧
    (classCandidates [columnPluginsItem, columnModelItem, columnDrawingItem] "Column").map
        (fun p => p.2.ns) =
      [some "Tekla.Structures.Plugins", some "Tekla.Structures.Model",
       some "Tekla.Structures.Drawing"] := by
  refine ⟨by decide, by decide, by decide, by decide⟩

/-- C3 witness: the Model-over-Drawing bias applied on the concrete
two-record store. -/
theorem claim_C3_witness :
    selectClass [columnDrawingItem, columnModelItem] "Column" =
      (classCandidates [columnDrawingItem, columnModelItem] "Column").find?
        (fun p => nsContains p.2 "Tekla.Structures.Model") ∧
    ∃ m, selectClass [columnDrawingItem, columnModelItem] "Column" = some m ∧
      nsContains m.2 "Tekla.Structures.Model" = true :=
  claim_C3_disambiguation.2.1 [columnDrawingItem, columnModelItem] "Column"
    (by decide) ⟨(1, columnModelItem), by decide, by decide⟩
    ⟨(0, columnDrawingItem), by decide, by decide⟩

/-! ### C4 — search kind filter placement -/

/-- Everything the merge loop emits came from the already-collected list or
from the online batch. -/
theorem mergeOnline_mem {limit : Nat} :
    ∀ (conv : List SearchResultRec) (combined : List SearchResultRec) (seen : List String)
      (r : SearchResultRec), r ∈ mergeOnline limit combined seen conv →
      r ∈ combined ∨ r ∈ conv := by
  intro conv
  induction conv with
  | nil =>
    intro combined seen r h
    simp only [mergeOnline] at h
    exact Or.inl h
  | cons o rest ih =>
    intro combined seen r h
    simp only [mergeOnline] at h
    split at h
    · rcases ih _ _ _ h with hc | hr
      · rcases List.mem_append.mp hc with hc | hc
        · exact Or.inl hc
        · simp only [List.mem_singleton] at hc
          exact Or.inr (by simp [hc])
      · exact Or.inr (List.mem_cons_of_mem _ hr)
    · rcases ih _ _ _ h with hc | hr
      · exact Or.inl hc
      · exact Or.inr (List.mem_cons_of_mem _ hr)

/-- Kind of a simulated online result. -/
theorem simulateOnlineResults_ty {query ty : String} {n : Nat} {r : OnlineApiResult}
    (h : r ∈ simulateOnlineResults query ty n) :
    r.ty = if ty == "" then "class" else ty := by
  simp only [simulateOnlineResults, List.mem_map] at h
  obtain ⟨i, _, rfl⟩ := h
  rfl

/-- Kind of a converted online result. -/
theorem convertOnlineResults_ty {l : List OnlineApiResult} {r : SearchResultRec}
    (h : r ∈ convertOnlineResults l) : ∃ o ∈ l, r.ty = o.ty := by
  simp only [convertOnlineResults, List.mem_map] at h
  obtain ⟨o, ho, rfl⟩ := h
  exact ⟨o, ho, rfl⟩

/-- Members of the local stage carry the kind filter (when not `"all"`). -/
theorem localStage_ty {ranked apiData : List SearchResultRec} {ty : String} {limit : Nat}
    {r : SearchResultRec} (hty : ty ≠ "all") (hr : r ∈ localStage ranked apiData ty limit) :
    r.ty = ty := by
  simp only [localStage] at hr
  rw [if_pos (by simpa [bne_iff_ne] using hty)] at hr
  have := (List.mem_filter.mp (List.take_subset _ _ hr)).2
  simpa [beq_iff_eq] using this

/-- C4 (amended): `kindFilter = "all"` applies no kind restriction; any
other filter restricts the RANKED list before truncation, so the local
stage is the first `limit` elements of the kind-filtered ranked list (not
a filtering of the first `limit` ranked elements); if the fallback policy
does not trigger, that local stage is the whole answer; and — filter or
no filter — with a non-empty kind filter every returned element (locally
ranked or fallback-appended) carries that kind. -/
theorem claim_C4_search_filter :
    (∀ ranked apiData limit, localStage ranked apiData "all" limit =
      (mapStage ranked apiData).take limit) ∧
    (∀ ranked apiData ty limit, ty ≠ "all" →
      localStage ranked apiData ty limit =
        ((mapStage ranked apiData).filter (fun it => it.ty == ty)).take limit) ∧
    (∀ ranked apiData fb query ty limit,
      shouldUseFallback ((localStage ranked apiData ty limit).map toLocalResult) query = false →
      searchM ranked apiData fb query ty limit = (localStage ranked apiData ty limit, fb)) ∧
    (∀ ranked apiData query ty limit r, ty ≠ "all" → ty ≠ "" →
      r ∈ (searchM ranked apiData emptyFallbackState query ty limit).1 → r.ty = ty) := by
  refine ⟨?_, ?_, ?_, ?_⟩
  · intro ranked apiData limit
    simp [localStage]
  · intro ranked apiData ty limit hty
    simp only [localStage]
    rw [if_pos (by simpa [bne_iff_ne] using hty)]
  · intro ranked apiData fb query ty limit h
    simp only [searchM]
    rw [h]
    simp
  · intro ranked apiData query ty limit r hty hty' hr
    simp only [searchM] at hr
    split at hr
    · have hmerge := mergeOnline_mem _ _ _ _ hr
      rcases hmerge with hl | hconv
      · exact localStage_ty hty hl
      · have hso : (searchOnline emptyFallbackState query ty limit).1 =
            simulateOnlineResults query ty limit := rfl
        rw [hso] at hconv
        obtain ⟨o, ho, hro⟩ := convertOnlineResults_ty hconv
        rw [hro, simulateOnlineResults_ty ho, if_neg (by simpa [beq_iff_eq] using hty')]
    · exact localStage_ty hty hr

/-- C4 counterexample: with no ranked results the fallback appends online
answers, so the returned list is NOT the first `limit` elements of the
kind-filtered ranked list (that list is empty); and with the (falsy)
empty-string kind filter the returned results carry kind `"class"`, not
the filter value. -/
theorem claim_C4_counterexample :
    ((searchM [] [] emptyFallbackState "Beam" "class" 1).1).map (fun r => r.title) =
      ["Beam Class"] ∧
    localStage ([] : List SearchResultRec) [] "class" 1 = [] ∧
    ((searchM [] [] emptyFallbackState "Beam" "" 1).1).map (fun r => r.ty) = ["class"] := by
  refine ⟨by decide, by decide, by decide⟩

/-- C4 witness: the post-ranking filter placement and the kind invariant
applied on a concrete ranked list (two records, one method between two
classes, limit 2). -/
def c4beamClassRec : SearchResultRec :=
  { id := "Beam Class", title := "Beam Class", name := "Beam Class", ty := "class",
    ns := some "Tekla.Structures.Model", normalizedNamespace := "Tekla.Structures.Model",
    summary := some "Represents a beam.", description := none, htmlFile := "beam.htm" }

def c4insertMethodRec : SearchResultRec :=
  { id := "Beam.Insert Method", title := "Beam.Insert Method", name := "Beam.Insert Method",
    ty := "method", ns := some "Tekla.Structures.Model",
    normalizedNamespace := "Tekla.Structures.Model",
    summary := some "Inserts the beam.", description := none, htmlFile := "insert.htm" }

def c4drawClassRec : SearchResultRec :=
  { id := "BeamDraw Class", title := "BeamDraw Class", name := "BeamDraw Class", ty := "class",
    ns := some "Tekla.Structures.Drawing", normalizedNamespace := "Tekla.Structures.Drawing",
    summary := some "Draws a beam.", description := none, htmlFile := "draw.htm" }

theorem claim_C4_witness :
    localStage [c4beamClassRec, c4insertMethodRec, c4drawClassRec] [] "class" 2 =
      ((mapStage [c4beamClassRec, c4insertMethodRec, c4drawClassRec] []).filter
        (fun it => it.ty == "class")).take 2 ∧
    c4drawClassRec.ty = "class" :=
  ⟨claim_C4_search_filter.2.1 [c4beamClassRec, c4insertMethodRec, c4drawClassRec] [] "class" 2
      (by decide),
   claim_C4_search_filter.2.2.2 [c4beamClassRec, c4insertMethodRec, c4drawClassRec] []
      "Beam" "class" 2 c4drawClassRec (by decide) (by decide) (by decide)⟩

/-! ### C5 — idempotent `detailedInfo` attachment -/

/-- One successful attaching call of `getClassDetails(name, true)`. -/
theorem getClassDetailsM_attach (parse : String → Option DetailedClassInfo)
    (classes apiData : List ApiItem) (query : String) (i : Nat) (item : ApiItem)
    (d : DetailedClassInfo)
    (hsel : selectClass classes query = some (i, item))
    (hq : hasPoorQualityItem item = false)
    (hfile : item.htmlFile ≠ "")
    (hparse : parse item.htmlFile = some d) :
    getClassDetailsM parse classes apiData query true =
      (ClassDetailsResult.localItem { item with detailedInfo := some d },
       classes.set i { item with detailedInfo := some d }) := by
  simp only [getClassDetailsM]
  rw [hsel]
  simp only [hq, Bool.false_eq_true, if_false]
  rw [if_pos (by simp [bne_iff_ne, hfile]), hparse]

/-- C5: attaching `detailedInfo` is idempotent.  When `getClassDetails`
selects a good-quality local record whose page parses, the call returns
the record with `detailedInfo` attached and overwrites that slot of the
store; an immediately repeated call selects the same slot, re-attaches by
OVERWRITING (the store does not change again), returns the identical
answer, and the `properties`/`methods` lists inside `detailedInfo` are
exactly the single parse result's lists both times — never appended to or
duplicated. -/
theorem claim_C5_idempotent_attach (parse : String → Option DetailedClassInfo)
    (classes apiData : List ApiItem) (query : String) (i : Nat) (item : ApiItem)
    (d : DetailedClassInfo)
    (hsel : selectClass classes query = some (i, item))
    (hq : hasPoorQualityItem item = false)
    (hfile : item.htmlFile ≠ "")
    (hparse : parse item.htmlFile = some d) :
    getClassDetailsM parse classes apiData query true =
      (ClassDetailsResult.localItem { item with detailedInfo := some d },
       classes.set i { item with detailedInfo := some d }) ∧
    getClassDetailsM parse (classes.set i { item with detailedInfo := some d }) apiData
        query true =
      (ClassDetailsResult.localItem { item with detailedInfo := some d },
       classes.set i { item with detailedInfo := some d }) ∧
    ({ item with detailedInfo := some d } : ApiItem).detailedInfo = some d ∧
    Option.map DetailedClassInfo.properties
      ({ item with detailedInfo := some d } : ApiItem).detailedInfo = some d.properties ∧
    Option.map DetailedClassInfo.methods
      ({ item with detailedInfo := some d } : ApiItem).detailedInfo = some d.methods := by
  have hfirst := getClassDetailsM_attach parse classes apiData query i item d
    hsel hq hfile hparse
  have hsel2 := selectClass_set (some d) hsel
  have hsecond := getClassDetailsM_attach parse
    (classes.set i { item with detailedInfo := some d }) apiData query i
    { item with detailedInfo := some d } d hsel2 hq hfile hparse
  refine ⟨hfirst, ?_, rfl, rfl, rfl⟩
  rw [hsecond, List.set_set]

/-- Fixture detail data and parser for the C5 witness. -/
def beamDetail : DetailedClassInfo :=
  { name := "Beam", ns := "Tekla.Structures.Model", description := "Represents a beam.",
    syntaxText := some "public class Beam : Part", inheritance := none,
    constructors := [{ name := "Beam", description := "Creates a beam." }],
    properties := [{ name := "Name", ty := "property", description := "The name.",
                     inherited := false, inheritedFrom := none }],
    methods := [{ name := "Insert", description := "Inserts the beam.",
                  inherited := false, inheritedFrom := none }],
    examples := [] }

def beamParse : String → Option DetailedClassInfo :=
  fun f => if f == "beam.htm" then some beamDetail else none

/-- C5 witness: the double call evaluated on a concrete one-record store. -/
theorem claim_C5_witness :
    getClassDetailsM beamParse [beamClassItem] [] "Beam" true =
      (ClassDetailsResult.localItem { beamClassItem with detailedInfo := some beamDetail },
       [beamClassItem].set 0 { beamClassItem with detailedInfo := some beamDetail }) ∧
    getClassDetailsM beamParse
        ([beamClassItem].set 0 { beamClassItem with detailedInfo := some beamDetail }) []
        "Beam" true =
      (ClassDetailsResult.localItem { beamClassItem with detailedInfo := some beamDetail },
       [beamClassItem].set 0 { beamClassItem with detailedInfo := some beamDetail }) :=
  (fun H => ⟨H.1, H.2.1⟩)
    (claim_C5_idempotent_attach beamParse [beamClassItem] [] "Beam" 0 beamClassItem beamDetail
      (by decide) (by decide) (by decide) (by decide))

/-! ### C6 — operation-boundary error conversion -/

/-- C6 (amended): over arbitrary (also malformed) stored data, the five
operations `getMethodDetails`, `browseNamespace`, `getCodeExamples`,
`getClassDetails` and `search` never surface a fault: each catches at its
boundary and answers with `null` / the empty list / — for `search` — the
converted online-fallback batch (NOT the empty list, as the concrete
conjuncts show).  `getStatistics` is NOT among them: it has no boundary
catch (see the counterexample). -/
theorem claim_C6_boundary_catch :
    (∀ methods apiData mn cn, ∃ v, getMethodDetailsPub methods apiData mn cn = Except.ok v) ∧
    (∀ apiData ns im, ∃ v, browseNamespacePub apiData ns im = Except.ok v) ∧
    (∀ examples el lang, ∃ v, getCodeExamplesPub examples el lang = Except.ok v) ∧
    (∀ parse classes apiData cn im, ∃ v,
      getClassDetailsPub parse classes apiData cn im = Except.ok v) ∧
    (∀ ranked apiData fb q ty limit, ∃ v,
      searchPub ranked apiData fb q ty limit = Except.ok v) ∧
    (searchBody [some {}] [] emptyFallbackState "Beam" "all" 5 =
      Except.error JsError.typeError) ∧
    (searchPub [some {}] [] emptyFallbackState "Beam" "all" 5 =
      Except.ok
        ((convertOnlineResults (simulateOnlineResults "Beam" "all" 5)).map dynOfSearchRec,
         insertFb emptyFallbackState (cacheKey "Beam" "all" 5)
           (simulateOnlineResults "Beam" "all" 5))) := by
  refine ⟨?_, ?_, ?_, ?_, ?_, by rfl, ?_⟩
  · intro methods apiData mn cn
    simp only [getMethodDetailsPub]
    cases getMethodDetailsBody methods apiData mn cn <;> exact ⟨_, rfl⟩
  · intro apiData ns im
    simp only [browseNamespacePub]
    cases browseNamespaceBody apiData ns im <;> exact ⟨_, rfl⟩
  · intro examples el lang
    simp only [getCodeExamplesPub]
    cases getCodeExamplesBody examples el lang <;> exact ⟨_, rfl⟩
  · intro parse classes apiData cn im
    simp only [getClassDetailsPub]
    cases getClassDetailsBody parse classes apiData cn im <;> exact ⟨_, rfl⟩
  · intro ranked apiData fb q ty limit
    simp only [searchPub]
    cases searchBody ranked apiData fb q ty limit <;> exact ⟨_, rfl⟩
  · rfl

/-- C6 counterexample: `getStatistics` has no boundary `catch`; on a store
whose examples file held an example without a `codeSnippets` array the
`reduce` step throws and the fault propagates to the caller. -/
theorem claim_C6_counterexample :
    getStatisticsPub [] [] [] [] [] [] [] [some { name := some "Ex" }] =
      Except.error JsError.typeError := rfl

/-! ### C8 — normalizer title and summary invariants -/

/-- C8 (amended): the bulk normalizer's `title` is the page's trimmed
title-element capture when the title regex matched (EVEN IF the trimmed
capture is empty — there is no fallback on emptiness), and the TOC entry's
display name only when the regex did not match; `title` is therefore
non-empty exactly under the side conditions below.  `summary` is always a
string and follows the spec's fallback chain (explicit summary block
stripped and whitespace-collapsed when non-empty, else the description
metadata, else the empty string). -/
theorem claim_C8_normalizer :
    (∀ pg toc t, pg.titleText = some t → (parseLightM pg toc).title = jsTrim t) ∧
    (∀ pg toc, pg.titleText = none → (parseLightM pg toc).title = toc.name) ∧
    (∀ pg toc, (parseLightM pg toc).summary = summarySpecChain pg) ∧
    (∀ pg toc,
      (match pg.titleText with
       | some t => jsTrim t ≠ ""
       | none => toc.name ≠ "") →
      (parseLightM pg toc).title ≠ "") := by
  refine ⟨?_, ?_, ?_, ?_⟩
  · intro pg toc t ht
    simp [parseLightM, ht]
  · intro pg toc ht
    simp [parseLightM, ht]
  · intro pg toc
    cases hsb : pg.summaryBlock with
    | none => simp [parseLightM, summarySpecChain, hsb]
    | some raw => simp [parseLightM, summarySpecChain, hsb]
  · intro pg toc h
    cases hns : pg.titleText with
    | none =>
      rw [hns] at h
      simpa [parseLightM, hns] using h
    | some t =>
      rw [hns] at h
      simpa [parseLightM, hns] using h

/-- C8 counterexample: a page whose title element matched but holds only
whitespace produces a record with an EMPTY title (no fallback to the TOC
display name occurs), falsifying "title is always non-empty". -/
theorem claim_C8_counterexample :
    (parseLightM
      { titleText := some "   ", descriptionMeta := none, containerMeta := none,
        summaryBlock := none }
      { name := "Beam Class", htmlFile := "beam.htm", level := 2, ty := "class",
        ns := "Tekla.Structures.Model" }).title = "" := by decide

/-- C8 witness: the non-emptiness conditions applied on a concrete page
with both a real title capture and a summary block. -/
theorem claim_C8_witness :
    (parseLightM
      { titleText := some "  Beam Class ", descriptionMeta := some "Beam description.",
        containerMeta := none, summaryBlock := some " <p>Represents  a beam.</p> " }
      { name := "Beam Class", htmlFile := "beam.htm", level := 2, ty := "class",
        ns := "Tekla.Structures.Model" }).title ≠ "" :=
  claim_C8_normalizer.2.2.2
    { titleText := some "  Beam Class ", descriptionMeta := some "Beam description.",
      containerMeta := none, summaryBlock := some " <p>Represents  a beam.</p> " }
    { name := "Beam Class", htmlFile := "beam.htm", level := 2, ty := "class",
      ns := "Tekla.Structures.Model" }
    (by decide)

end TeklaMcp
